import Mathlib

/-!
Verification development for the aysa-commands core: the image-reference
parsing layer and registry HTTP client (`aysa_commands/_docker.py`), the
catalog walker and release promotion (`aysa_commands/registry.py`), and the
remote session / deployment orchestration (`aysa_commands/remote.py` together
with `Command.execute` in `aysa_commands/_common.py`).

Python strings are modelled as `List Char` (inputs are assumed ASCII, which
covers every string the tool builds or matches).  The regular expressions of
the source are translated into executable matchers; greedy matching with
backtracking degenerates to deterministic maximal munch for these particular
patterns because the repeated character classes never contain the characters
that delimit them (`.`, `:`, `/`), so the matchers below are written in that
deterministic form.  Network and remote-shell effects are modelled by oracles
(the outcome of each call is a parameter) while the command sequencing, the
exception flow and every string computation follow the source.
-/

/-! ## String helpers (Python `str` operations on `List Char`) -/

def chars (s : String) : List Char := s.toList

/-- Python string interpolation of a possibly-`None` value: `str(None)` is
the text `None`. -/
def pyStr : Option (List Char) → List Char
  | some s => s
  | none => chars "None"

def isSpaceChar (c : Char) : Bool :=
  c = ' ' || c = '\t' || c = '\n' || c = '\r' || c = '\x0b' || c = '\x0c'

/-- Python `str.strip()` (ASCII whitespace). -/
def pyStrip (s : List Char) : List Char :=
  ((s.dropWhile isSpaceChar).reverse.dropWhile isSpaceChar).reverse

/-- Python `str.split(sep)` for a one-character separator and no maxsplit:
splits at every occurrence, keeping empty segments (`"".split(c) == ['']`). -/
def splitOn (sep : Char) : List Char → List (List Char)
  | [] => [[]]
  | c :: cs =>
    match splitOn sep cs with
    | [] => [[c]]
    | h :: t => if c = sep then [] :: h :: t else (c :: h) :: t

/-- Python `value.rsplit(sep, 1)`: `(s, none)` when `sep` does not occur,
otherwise `(before, some after)` split at the last occurrence. -/
def rsplitLast (sep : Char) : List Char → List Char × Option (List Char)
  | [] => ([], none)
  | c :: cs =>
    match rsplitLast sep cs with
    | (pre, some post) => (c :: pre, some post)
    | (pre, none) => if c = sep then ([], some cs) else (c :: pre, none)

def toLowerStr (s : List Char) : List Char := s.map Char.toLower

/-- Case-insensitive prefix test (`re.I` literal matching). -/
def ciStarts (pat s : List Char) : Bool :=
  (toLowerStr pat).isPrefixOf (toLowerStr s)

/-- Python `value.replace(pat, '')`: removes every non-overlapping occurrence
of `pat`, scanning left to right.  Fuel-indexed so that it is structurally
recursive; `pyReplaceAll` supplies `s.length` fuel, which is enough because
every step consumes at least one character. -/
def replaceAllAux (pat : List Char) : Nat → List Char → List Char
  | 0, s => s
  | _ + 1, [] => []
  | fuel + 1, c :: cs =>
    if pat ≠ [] && pat.isPrefixOf (c :: cs) then
      replaceAllAux pat fuel (List.drop (pat.length - 1) cs)
    else c :: replaceAllAux pat fuel cs

def pyReplaceAll (s pat : List Char) : List Char := replaceAllAux pat s.length s

/-! ## `_docker.py`: regular expressions -/

/-- `[a-z0-9]` (the repository pattern is compiled without `re.I`). -/
def isLowerAlnum (c : Char) : Bool := ('a' ≤ c && c ≤ 'z') || c.isDigit

/-- The separators `[/:._-]` of `rx_repository`. -/
def isRepoSep (c : Char) : Bool :=
  c = '/' || c = ':' || c = '.' || c = '_' || c = '-'

/-- Matcher continuation for `rx_repository` after an initial `[a-z0-9]`:
the remaining `[a-z0-9]*(?:[/:._-][a-z0-9]+)*$`.  As in the source (no
`re.M`), the `$` anchor matches at the end of the string and also just
before a single trailing newline, so a lone `'\n'` in final position is
accepted. -/
def repoTail : List Char → Bool
  | [] => true
  | ['\n'] => true
  | c :: cs =>
    if isLowerAlnum c then repoTail cs
    else if isRepoSep c then
      match cs with
      | [] => false
      | d :: ds => isLowerAlnum d && repoTail ds
    else false

/-- `rx_repository = ^[a-z0-9]+(?:[/:._-][a-z0-9]+)*$`, with Python's
`$` semantics: the pattern may also stop just before one trailing
newline (`rx_repository.match('app\n')` succeeds in the source). -/
def rx_repository (s : List Char) : Bool :=
  match s with
  | [] => false
  | c :: cs => isLowerAlnum c && repoTail cs

/-- `[\w\-]` under `re.I` (ASCII). -/
def isWordDash (c : Char) : Bool := c.isAlpha || c.isDigit || c = '_' || c = '-'

/-- The suffix `(?::\d{1,5})?/` of `rx_registry`: an optional port (one to
five digits) followed by the slash.  Returns the rest of the input after the
slash when it matches.  Backtracking inside `\d{1,5}` cannot help: taking
fewer digits leaves a digit (not `/`) as the next character. -/
def matchPortSlash : List Char → Option (List Char)
  | '/' :: rest => some rest
  | ':' :: rest =>
    let ds := rest.takeWhile Char.isDigit
    match rest.dropWhile Char.isDigit with
    | '/' :: r2 => if 1 ≤ ds.length && ds.length ≤ 5 then some r2 else none
    | _ => none
  | _ => none

/-- Consumes `(?:\.[\w\-]+)*` greedily, returning how many groups were
consumed and the rest.  Fuel-indexed (callers pass the input length). -/
def dotGroups : Nat → List Char → Nat × List Char
  | 0, s => (0, s)
  | fuel + 1, '.' :: rest =>
    let w := rest.takeWhile isWordDash
    if w.isEmpty then (0, '.' :: rest)
    else
      let (n, r) := dotGroups fuel (rest.dropWhile isWordDash)
      (n + 1, r)
  | _ + 1, s => (0, s)

/-- Second alternative of `rx_registry`: `[\w\-]+(\.[\w\-]+)+` followed by
the optional port and the slash. -/
def registryAltHost (s : List Char) : Option (List Char) :=
  let w := s.takeWhile isWordDash
  let r := s.dropWhile isWordDash
  if w.isEmpty then none
  else
    let (n, r2) := dotGroups r.length r
    if n = 0 then none else matchPortSlash r2

/-- First alternative of `rx_registry`: the literal `localhost` (case
insensitive) followed by the optional port and the slash. -/
def registryAltLocalhost (s : List Char) : Option (List Char) :=
  if ciStarts (chars "localhost") s then matchPortSlash (s.drop 9) else none

/-- `get_registry`: `rx_registry.match(value)` returning `match.group()`
(the matched prefix) or `None`.
`rx_registry = ^(localhost|[\w\-]+(\.[\w\-]+)+)(?::\d{1,5})?/` with `re.I`.
The engine tries the `localhost` alternative first and falls back to the
dotted-host alternative when the continuation fails. -/
def get_registry (value : List Char) : Option (List Char) :=
  match registryAltLocalhost value with
  | some rest => some (value.take (value.length - rest.length))
  | none =>
    match registryAltHost value with
    | some rest => some (value.take (value.length - rest.length))
    | none => none

/-! ## `_docker.py`: composite-string parsing (`get_parts` and `Image`) -/

/-- `remove_registry`: when a registry prefix is found the source calls
`value.replace(registry, '')`, i.e. removes every occurrence of the matched
prefix string, not only the leading one. -/
def remove_registry (value : List Char) : List Char :=
  match get_registry value with
  | none => value
  | some r => pyReplaceAll value r

/-- `get_tag`: `None` when no `:` remains after registry removal, otherwise
the substring after the last `:`. -/
def get_tag (value : List Char) : Option (List Char) :=
  (rsplitLast ':' (remove_registry value)).2

/-- `get_repository`: everything before the last `:` (the whole remainder
when there is no `:`). -/
def get_repository (value : List Char) : List Char :=
  (rsplitLast ':' (remove_registry value)).1

/-- `get_namespace`: the repository minus its final `/`-segment, `None` when
the repository has no `/`. -/
def get_namespace (value : List Char) : Option (List Char) :=
  match rsplitLast '/' (get_repository value) with
  | (pre, some _) => some pre
  | (_, none) => none

/-- `get_image`: the final `/`-segment of the repository. -/
def get_image (value : List Char) : List Char :=
  match rsplitLast '/' (get_repository value) with
  | (_, some post) => post
  | (r, none) => r

inductive DockerError
  | registryError (msg : List Char)
  | apiFailure
  deriving DecidableEq

/-- The message of the `RegistryError` raised by `get_parts`:
`'El endpoint "{}" está mal formateado.'.format(value)`. -/
def malformedMsg (value : List Char) : List Char :=
  chars "El endpoint \"" ++ value ++ chars "\" está mal formateado."

/-- The attributes `Image.__init__` copies from `get_parts(value)` plus the
raw `value` the constructor stores.  The source field `namespace` is spelled
`nspace` here because `namespace` is a Lean keyword. -/
structure Image where
  registry : Option (List Char)
  repository : List Char
  nspace : Option (List Char)
  image : List Char
  tag : Option (List Char)
  value : List Char
  deriving DecidableEq

/-- `get_parts` (and hence the `Image` constructor): validates the
repository against `rx_repository` and raises `RegistryError` otherwise.
The `Image` constructor performs no further work, so it is merged into the
same definition. -/
def get_parts (value : List Char) : Except DockerError Image :=
  if rx_repository (get_repository value) then
    .ok ⟨get_registry value, get_repository value, get_namespace value,
         get_image value, get_tag value, value⟩
  else .error (.registryError (malformedMsg value))

/-- `Image.image_tag`: `'{}:{}'.format(self.repository, self.tag)`. -/
def image_tag (x : Image) : List Char := x.repository ++ ':' :: pyStr x.tag

/-- `Image.full`: `'{}{}'.format(self.registry or '', self.image_tag)`. -/
def image_full (x : Image) : List Char := x.registry.getD [] ++ image_tag x

instance exceptDecEq {ε α : Type} [DecidableEq ε] [DecidableEq α] :
    DecidableEq (Except ε α) := fun x y =>
  match x, y with
  | .ok a, .ok b =>
    if h : a = b then isTrue (by rw [h])
    else isFalse (fun hh => h (Except.ok.inj hh))
  | .error e, .error f =>
    if h : e = f then isTrue (by rw [h])
    else isFalse (fun hh => h (Except.error.inj hh))
  | .ok _, .error _ => isFalse (fun hh => Except.noConfusion hh)
  | .error _, .ok _ => isFalse (fun hh => Except.noConfusion hh)

/-! ## `_docker.py`: the HTTP client (`Registry.session` / `Registry.request`) -/

structure ErrEntry where
  code : List Char
  message : List Char
  deriving DecidableEq

/-- What `response.json()` can reveal to `Registry.request`: the body is not
decodable JSON, or it is JSON that may or may not carry an `errors` array. -/
inductive RegBody
  | notJson
  | json (errorsKey : Option (List ErrEntry))
  deriving DecidableEq

inductive HttpError
  | jsonDecode (status : Nat)
  | indexError
  | registryError (msg : List Char)
  deriving DecidableEq

/-- `requests.Response.raise_for_status` raises `HTTPError` exactly for
status codes in 4xx/5xx. -/
def raise_for_status (status : Nat) : Bool := 400 ≤ status && status < 600

/-- `Registry.request` after the transport returned (`status`, `body`):

```
try:
    response.raise_for_status()
except requests.HTTPError:
    data = response.json()
    if 'errors' in data:
        error = data['errors'][0]
        raise RegistryError('{code}: {message}'.format(**error))
return response
```

On an error status: an undecodable body makes `response.json()` raise (a
`JSONDecodeError`, chaining the `HTTPError` as context); a JSON body with a
non-empty `errors` array raises `RegistryError`; an empty `errors` array
raises `IndexError`; a JSON body without `errors` falls through the
`except` block and the response is returned despite its error status. -/
def registry_request (status : Nat) (body : RegBody) : Except HttpError Nat :=
  if raise_for_status status then
    match body with
    | .notJson => .error (.jsonDecode status)
    | .json none => .ok status
    | .json (some []) => .error .indexError
    | .json (some (e :: _)) =>
      .error (.registryError (e.code ++ chars ": " ++ e.message))
  else .ok status

structure Registry where
  host : List Char
  insecure : Bool
  verify : Bool
  credentials : Option (List Char)
  deriving DecidableEq

/-- `Registry.get_credentials(split=True)`: `self.credentials.split(':')`
(no maxsplit — splits at every colon). -/
def get_credentials_split (r : Registry) : Option (List (List Char)) :=
  r.credentials.map (splitOn ':')

structure HttpSession where
  auth : Option (List Char × List Char)
  headers : List (List Char × List Char)
  verify : Bool
  deriving DecidableEq

inductive PyError
  | typeError
  deriving DecidableEq

/-- Dict-update semantics for a header map kept as an association list. -/
def setHeader (k v : List Char) (hs : List (List Char × List Char)) :
    List (List Char × List Char) :=
  if hs.any (fun p => p.1 = k) then
    hs.map (fun p => if p.1 = k then (k, v) else p)
  else hs ++ [(k, v)]

def updateHeaders (base upd : List (List Char × List Char)) :
    List (List Char × List Char) :=
  upd.foldl (fun acc p => setHeader p.1 p.2 acc) base

def lookupHeader (k : List Char) (hs : List (List Char × List Char)) :
    Option (List Char) :=
  (hs.find? (fun p => p.1 = k)).map (fun p => p.2)

/-- `Registry.session`: builds the transport session.  When credentials are
configured, `HTTPBasicAuth(*self.get_credentials(True))` requires the split
to yield exactly two parts (username, password); any other arity raises
`TypeError` before the headers are touched.  Afterwards the caller-supplied
headers are merged and `User-Agent` is set last, overriding any caller
value.  The default headers of `requests.Session()` are abstracted to the
empty map. -/
def mk_session (r : Registry) (headers : List (List Char × List Char)) :
    Except PyError HttpSession :=
  let ua := setHeader (chars "User-Agent") (chars "AySA-Command-Line-Tool")
  match r.credentials with
  | none => .ok ⟨none, ua (updateHeaders [] headers), r.verify⟩
  | some c =>
    let parts := splitOn ':' c
    if parts.length = 2 then
      .ok ⟨some (parts.getD 0 [], parts.getD 1 []),
           ua (updateHeaders [] headers), r.verify⟩
    else .error .typeError

/-! ## `registry.py`: filter normalization and the catalog walker -/

/-- `_RegistryCommand._fix_image_name` (with the namespace argument already
resolved): strip, then prefix `namespace + '/'` unless the value already
starts with the namespace. -/
def fix_image_name (ns value : List Char) : List Char :=
  let v := pyStrip value
  if ns.isPrefixOf v then v else ns ++ '/' :: v

/-- The dynamic `values` argument of `_fix_images_list`: `None`, a
comma-separated string, or a list of strings. -/
inductive ReposInput
  | noneV
  | strV (s : List Char)
  | listV (l : List (List Char))
  deriving DecidableEq

/-- `_fix_images_list`: `values.split(',') if isinstance(values, str) else
values or []`, then strip and namespace-fix each entry. -/
def fix_images_list (ns : List Char) (values : ReposInput) : List (List Char) :=
  let vals : List (List Char) :=
    match values with
    | .noneV => []
    | .strV s => splitOn ',' s
    | .listV l => l
  vals.map (fun x => fix_image_name ns (pyStrip x))

inductive TagsInput
  | noneV
  | strV (s : List Char)
  | listV (l : List (List Char))
  deriving DecidableEq

/-- The value of the local `filter_tags` inside `_list`: either the wildcard
string `'*'` or a list of tag names. -/
inductive TagFilter
  | wildcard
  | listF (l : List (List Char))
  deriving DecidableEq

/-- `_fix_tags_list`: falsy input or the literal `'*'` collapses to the
wildcard; a string is split on commas; entries are stripped. -/
def fix_tags_list (values : TagsInput) : TagFilter :=
  match values with
  | .noneV => .wildcard
  | .strV s =>
    if s = [] || s = ['*'] then .wildcard
    else .listF ((splitOn ',' s).map pyStrip)
  | .listV l =>
    if l = [] then .wildcard else .listF (l.map pyStrip)

/-- Python truthiness of the `filter_tags` local (`'*'` is truthy; a list is
truthy when non-empty). -/
def tagFilterTruthy : TagFilter → Bool
  | .wildcard => true
  | .listF l => !l.isEmpty

/-- The per-tag test of `_list`: skip `y` iff `filter_tags != '*'` and `y`
is not a member. -/
def tagPass (ft : TagFilter) (y : List Char) : Bool :=
  match ft with
  | .wildcard => true
  | .listF l => decide (y ∈ l)

/-- The per-repository skip test of `_list`:
`(self.namespace and not x.startswith(self.namespace)) or
 (filter_repos and x not in filter_repos)`. -/
def repoSkip (ns : List Char) (frs : List (List Char)) (x : List Char) : Bool :=
  (!ns.isEmpty && !ns.isPrefixOf x) || (!frs.isEmpty && !decide (x ∈ frs))

/-- The inner tag loop of `_list` for one repository `x`: one
`Image('{x}:{y}')` per passing tag `y`; a malformed composite raises out of
the generator. -/
def tagLoop (ft : TagFilter) (x : List Char) :
    List (List Char) → Except DockerError (List Image)
  | [] => .ok []
  | y :: ys =>
    if tagPass ft y then
      match get_parts (x ++ ':' :: y) with
      | .error e => .error e
      | .ok i => (tagLoop ft x ys).map (fun l => i :: l)
    else tagLoop ft x ys

/-- The repository loop of `_list`, after the two filters have been
normalized.  `tagsOf` abstracts `self.api.tags(x)` (the tag list the
registry reports for `x`); `catalog` abstracts `self.api.catalog()`. -/
def listLoop (ns : List Char) (frs : List (List Char)) (ft : TagFilter)
    (tagsOf : List Char → List (List Char)) :
    List (List Char) → Except DockerError (List Image)
  | [] => .ok []
  | x :: xs =>
    if repoSkip ns frs x then listLoop ns frs ft tagsOf xs
    else if tagFilterTruthy ft then
      match tagLoop ft x (tagsOf x) with
      | .error e => .error e
      | .ok l1 => (listLoop ns frs ft tagsOf xs).map (fun l2 => l1 ++ l2)
    else
      match get_parts x with
      | .error e => .error e
      | .ok i => (listLoop ns frs ft tagsOf xs).map (fun l2 => i :: l2)

/-- `_RegistryCommand._list`, with the registry responses supplied as
parameters (the walker is lazy in the source; materializing it as an
`Except`-valued list preserves which items are produced before a raise). -/
def list_images (ns : List Char) (catalog : List (List Char))
    (tagsOf : List Char → List (List Char))
    (filter_repos : ReposInput) (filter_tags : TagsInput) :
    Except DockerError (List Image) :=
  listLoop ns (fix_images_list ns filter_repos) (fix_tags_list filter_tags)
    tagsOf catalog

/-! ## `registry.py`: release promotion (`ReleaseCommand._release`) -/

/-- Registry mutations attempted by the release loop, in order.  `putTag`
records `api.put_tag(name, reference, target)` together with whether the
call succeeded; `logRollbackFail` records the
`logger.error('Rollback imagen "%s": %s', ...)` call of the swallowed
branch (the `logger.info` success messages are not modelled). -/
inductive RegEv
  | putTag (name reference target : List Char) (ok : Bool)
  | logRollbackFail (imageTag : List Char)
  deriving DecidableEq

/-- The body of `_release` once the confirmation gate has passed, iterating
over the images the walker produced.  For each image `x`:

```
t = Image('{}:{}'.format(x.repository, target_tag))
try:
    rollback = '{}-rollback'.format(t.tag)
    self.api.put_tag(t.repository, t.tag, rollback)
except Exception as e:
    self.logger.error('Rollback imagen "%s": %s', t.image_tag, e)
self.api.put_tag(x.repository, x.tag, t.tag)
```

`rbFail x` / `pmFail x` are oracles for the outcome of the two registry
calls; a promotion failure propagates out of the loop, so later images are
never reached (the walker is consumed lazily). -/
def release_loop (target_tag : List Char) (rbFail pmFail : Image → Bool) :
    List Image → List RegEv × Option DockerError
  | [] => ([], none)
  | x :: xs =>
    match get_parts (x.repository ++ ':' :: target_tag) with
    | .error e => ([], some e)
    | .ok t =>
      let rollback := pyStr t.tag ++ chars "-rollback"
      let rbEvs :=
        if rbFail x then
          [RegEv.putTag t.repository (pyStr t.tag) rollback false,
           RegEv.logRollbackFail (image_tag t)]
        else [RegEv.putTag t.repository (pyStr t.tag) rollback true]
      if pmFail x then
        (rbEvs ++ [RegEv.putTag x.repository (pyStr x.tag) (pyStr t.tag) false],
         some .apiFailure)
      else
        let (tr, r) := release_loop target_tag rbFail pmFail xs
        (rbEvs ++ RegEv.putTag x.repository (pyStr x.tag) (pyStr t.tag) true :: tr, r)

/-- `ReleaseCommand.quality`: `self._release('dev', 'rc', **kwargs)`. -/
def quality_release (rbFail pmFail : Image → Bool) (imgs : List Image) :
    List RegEv × Option DockerError :=
  release_loop (chars "rc") rbFail pmFail imgs

/-- `ReleaseCommand.production`: `self._release('rc', 'latest', **kwargs)`. -/
def production_release (rbFail pmFail : Image → Bool) (imgs : List Image) :
    List RegEv × Option DockerError :=
  release_loop (chars "latest") rbFail pmFail imgs

/-! ## `remote.py`: the remote session state machine -/

/-- The deployment stages of `_ConnectionCommand._stages`. -/
inductive Stage
  | development
  | quality
  deriving DecidableEq

/-- The per-stage connection profile resolved from configuration (the keys
`path` and `tag` are popped before connecting and play no role here). -/
structure StageEnv where
  user : List Char
  host : List Char
  pkey : List Char
  deriving DecidableEq

inductive RemEv
  | openConn (s : Stage)
  | closeConn (s : Stage)
  deriving DecidableEq

inductive RemErr
  | rootNotAllowed
  | commandFailed
  | loginFailed
  deriving DecidableEq

/-- The mutable pair `(_stage, _connection_cache)` of `_ConnectionCommand`.
A cached connection is represented by the stage it was opened for. -/
structure SessionState where
  stage : Option Stage
  cache : Option Stage
  deriving DecidableEq

/-- `s_close`: tears down the cached connection, clearing both `_stage` and
`_connection_cache`; a no-op when no connection is cached. -/
def s_close (st : SessionState) : SessionState × List RemEv :=
  match st.cache with
  | some c => (⟨none, none⟩, [RemEv.closeConn c])
  | none => (st, [])

/-- `s_connection(stage)`: if a different stage is active, close first; then,
when no connection is cached, resolve the stage profile, reject a `root`
remote user with `SystemExit`, and open a fresh connection.  The returned
triple is (new state, emitted events, raised error if any); note that the
close performed before the `root` rejection has already happened when the
error is raised. -/
def s_connection (env : Stage → StageEnv) (stage : Stage) (st : SessionState) :
    SessionState × List RemEv × Option RemErr :=
  let (st1, tr1) :=
    if st.stage.isSome && st.stage ≠ some stage then s_close st else (st, [])
  match st1.cache with
  | some _ => (st1, tr1, none)
  | none =>
    if toLowerStr (env stage).user = chars "root" then
      (st1, tr1, some .rootNotAllowed)
    else (⟨some stage, some stage⟩, tr1 ++ [RemEv.openConn stage], none)

/-- The operations through which callers drive the session cache:
`connect s` is `s_connection(s)`, `closeOp` is `s_close()`, and `cnxOp` is
the `cnx` property (which reconnects to `_stage` when the cache is empty and
otherwise just reads the cache). -/
inductive SOp
  | connect (s : Stage)
  | closeOp
  | cnxOp
  deriving DecidableEq

def stepOp (env : Stage → StageEnv) (st : SessionState) :
    SOp → SessionState × List RemEv × Option RemErr
  | .connect s => s_connection env s st
  | .closeOp =>
    let (st1, tr1) := s_close st
    (st1, tr1, none)
  | .cnxOp =>
    match st.stage, st.cache with
    | some s, none => s_connection env s st
    | _, _ => (st, [], none)

/-- Runs a sequence of session operations; an error stops the run (the
exception propagates), keeping the events emitted up to and including the
failing operation. -/
def runOps (env : Stage → StageEnv) :
    List SOp → SessionState → List RemEv × SessionState × Option RemErr
  | [], st => ([], st, none)
  | op :: ops, st =>
    match stepOp env st op with
    | (st1, tr1, some e) => (tr1, st1, some e)
    | (st1, tr1, none) =>
      let (tr2, st2, r) := runOps env ops st1
      (tr1 ++ tr2, st2, r)

/-- Checks that a connection trace never has two connections live at once:
an open may only happen with no live connection, a close only with exactly
one. `n` is the number of currently live connections (0 or 1). -/
def widthOk : Nat → List RemEv → Bool
  | _, [] => true
  | n, RemEv.openConn _ :: t => n = 0 && widthOk 1 t
  | n, RemEv.closeConn _ :: t => n = 1 && widthOk 0 t

/-- Number of live connections after a trace, starting from `n`. -/
def afterW (n : Nat) : List RemEv → Nat
  | [] => n
  | RemEv.openConn _ :: t => afterW 1 t
  | RemEv.closeConn _ :: t => afterW 0 t

def live (st : SessionState) : Nat := if st.cache.isSome then 1 else 0

def countClose (tr : List RemEv) : Nat :=
  tr.countP (fun e => match e with | RemEv.closeConn _ => true | _ => false)

def countOpen (tr : List RemEv) : Nat :=
  tr.countP (fun e => match e with | RemEv.openConn _ => true | _ => false)

/-! ## `_common.py`: `Command.execute` and the cleanup hook -/

/-- `Command.execute` around a sub-command body:

```
command(**opt, global_args=global_args)
self.on_finish()
self.done()
```

For remote commands `on_finish` is `s_close`.  There is no `try/finally`:
when the body raises, `on_finish` is never reached and the exception
propagates (`done()` then never runs either). -/
def execute (body : SessionState → SessionState × List RemEv × Option RemErr)
    (st : SessionState) : SessionState × List RemEv × Option RemErr :=
  match body st with
  | (st1, tr, some e) => (st1, tr, some e)
  | (st1, tr, none) =>
    let (st2, tr2) := s_close st1
    (st2, tr ++ tr2, none)

/-! ## `remote.py`: login and the deploy sequence -/

/-- `rx_login = re.compile(r'Login\sSucceeded$', re.I)` used with `.match`:
anchored at the start of the output; `$` also matches just before a single
trailing newline. -/
def rx_login (s : List Char) : Bool :=
  ciStarts (chars "Login") s &&
    match s.drop 5 with
    | c :: rest =>
      isSpaceChar c &&
        (toLowerStr rest = chars "succeeded" ||
         toLowerStr rest = chars "succeeded\n")
    | [] => false

/-- The command string `'docker login -u {} -p {} {}'.format(*crd, env.host)`
with `crd = env.credentials.split(':')`.  Extra positional arguments to
`format` are ignored, so the third slot is `crd[2]` when the split has a
third part, and the host otherwise; a single-part split leaves the third
slot unfilled and `format` raises `IndexError` (caught by `_login`). -/
def mkLoginCmd (credentials host : List Char) : Option (List Char) :=
  let crd := splitOn ':' credentials
  if 2 ≤ crd.length then
    some (chars "docker login -u " ++ crd.getD 0 [] ++ chars " -p " ++
          crd.getD 1 [] ++ ' ' :: (if 3 ≤ crd.length then crd.getD 2 [] else host))
  else none

/-- The outcome of running the login command remotely: the call raised, or
it returned a captured stdout. -/
inductive LoginOutcome
  | raises
  | output (stdout : List Char)
  deriving DecidableEq

/-- `_ConnectionCommand._login`: builds the login command, runs it, and
matches the output against `rx_login`; every exception (a failed remote
call, or the `IndexError` from building the command) is caught and turns
into `False`.  Returns the remote commands issued and the boolean result. -/
def login_model (credentials host : List Char) (oc : LoginOutcome) :
    List (List Char) × Bool :=
  match mkLoginCmd credentials host with
  | none => ([], false)
  | some cmd =>
    match oc with
    | .raises => ([cmd], false)
    | .output out => ([cmd], rx_login out)

def joinSpace : List (List Char) → List Char
  | [] => []
  | [x] => x
  | x :: xs => x ++ ' ' :: joinSpace xs

/-- `_ConnectionCommand._deploy`, recording the remote command lines it
issues in order.  The screen-scraping of `docker-compose ps --services` and
`docker-compose images` output is abstracted: `services` and `images` are
the sets those two discovery steps produce (their discovery commands still
appear in the trace at the position the source runs them).  When `_login()`
returns `False` the method raises `SystemExit` before any further remote
command. -/
def deploy (credentials host : List Char) (oc : LoginOutcome)
    (services images : List (List Char)) (update : Bool) :
    List (List Char) × Option RemErr :=
  let tr0 := (login_model credentials host oc).1
  if (login_model credentials host oc).2 then
    (tr0 ++ [chars "docker-compose stop",
             chars "docker-compose ps --services",
             chars "docker-compose images"] ++
     (if services.isEmpty then []
      else [chars "docker-compose rm -fsv " ++ joinSpace services]) ++
     (if images.isEmpty then []
      else [chars "docker rmi -f " ++ joinSpace images]) ++
     [chars "docker volume prune -f"] ++
     (if update then [chars "git reset --hard", chars "git pull --rebase --stat"]
      else []) ++
     [chars "docker-compose up -d --remove-orphans"], none)
  else (tr0, some .loginFailed)

/-! ## `remote.py`: stage selection of `_list_environ` -/

/-- Whether a stage's `--development` / `--quality` flag is set. -/
def stageFlag (development quality : Bool) : Stage → Bool
  | .development => development
  | .quality => quality

/-- The stage list `_list_environ` iterates:
`environs = [x for x in self._stages if values.get('--' + x, False)]` and
then `for x in environs or (DEVELOPMENT,)`. -/
def list_environ_stages (development quality : Bool) : List Stage :=
  let environs := [Stage.development, Stage.quality].filter
    (stageFlag development quality)
  if environs.isEmpty then [Stage.development] else environs

/-- The connection activity of `_list_environ` with `cnx=True`: one
`s_connection(x)` per selected stage, stopping if one raises. -/
def list_environ_connects (env : Stage → StageEnv) (development quality : Bool)
    (st : SessionState) : List RemEv × SessionState × Option RemErr :=
  runOps env ((list_environ_stages development quality).map SOp.connect) st

/-! ## Auxiliary definitions used by the statements -/

/-- Sequential `Except`-valued map: produces one output per input, stopping
at the first failure (the shape in which a lazily-consumed generator of
parsed values materializes). -/
def exMap {ε α β : Type} (f : α → Except ε β) : List α → Except ε (List β)
  | [] => .ok []
  | a :: as =>
    match f a with
    | .error e => .error e
    | .ok b => (exMap f as).map (fun bs => b :: bs)

/-- The release contract as the specification words it, written directly
over the selected images: for each image, first the rollback put-tag of the
target tag's current manifest under `{target_tag}-rollback` (a failure is
logged and swallowed), then the put-tag of the source manifest onto the
target tag (a failure propagates and stops the batch). -/
def release_spec_trace (target_tag : List Char) (rbFail pmFail : Image → Bool) :
    List Image → List RegEv × Option DockerError
  | [] => ([], none)
  | x :: xs =>
    let rbEvs :=
      if rbFail x then
        [RegEv.putTag x.repository target_tag (target_tag ++ chars "-rollback") false,
         RegEv.logRollbackFail (x.repository ++ ':' :: target_tag)]
      else
        [RegEv.putTag x.repository target_tag (target_tag ++ chars "-rollback") true]
    if pmFail x then
      (rbEvs ++ [RegEv.putTag x.repository (pyStr x.tag) target_tag false],
       some .apiFailure)
    else
      let (tr, r) := release_spec_trace target_tag rbFail pmFail xs
      (rbEvs ++ RegEv.putTag x.repository (pyStr x.tag) target_tag true :: tr, r)

/-- The failure condition of the login step as the claim states it: the
remote call raised, or its output does not match `rx_login`. -/
def loginFails (oc : LoginOutcome) : Bool :=
  match oc with
  | .raises => true
  | .output out => !rx_login out

/-- A fixed non-root connection profile used by concrete executions. -/
def envFix : Stage → StageEnv :=
  fun _ => ⟨chars "deploy", chars "host.local", chars "id_rsa"⟩

/-- A command body that opens the development connection and then raises
(the shape of any remote command whose step fails mid-way). -/
def failingBody (st : SessionState) : SessionState × List RemEv × Option RemErr :=
  match s_connection envFix Stage.development st with
  | (st1, tr1, some e) => (st1, tr1, some e)
  | (st1, tr1, none) => (st1, tr1, some RemErr.commandFailed)

/-- A command body that opens the development connection and succeeds. -/
def openingBody (st : SessionState) : SessionState × List RemEv × Option RemErr :=
  s_connection envFix Stage.development st

/-! ## String lemmas -/

theorem rsplitLast_not_mem (sep : Char) :
    ∀ s : List Char, sep ∉ s → rsplitLast sep s = (s, none) := by
  intro s
  induction s with
  | nil => intro _; rfl
  | cons c cs ih =>
    intro h
    have h1 : sep ∉ cs := fun hm => h (List.mem_cons_of_mem c hm)
    have h2 : ¬(c = sep) := fun he => h (by simp [he])
    simp [rsplitLast, ih h1, h2]

theorem rsplitLast_append (sep : Char) (post : List Char) (hpost : sep ∉ post) :
    ∀ pre : List Char, rsplitLast sep (pre ++ sep :: post) = (pre, some post) := by
  intro pre
  induction pre with
  | nil => simp [rsplitLast, rsplitLast_not_mem sep post hpost]
  | cons c pre ih => simp [rsplitLast, ih]

theorem splitOn_ne_nil (sep : Char) : ∀ s : List Char, splitOn sep s ≠ [] := by
  intro s
  induction s with
  | nil => simp [splitOn]
  | cons c cs ih =>
    unfold splitOn
    match hm : splitOn sep cs with
    | [] => exact absurd hm ih
    | h :: t =>
      by_cases hc : c = sep <;> simp [hc]

theorem splitOn_not_mem (sep : Char) :
    ∀ s : List Char, sep ∉ s → splitOn sep s = [s] := by
  intro s
  induction s with
  | nil => intro _; rfl
  | cons c cs ih =>
    intro h
    have h1 : sep ∉ cs := fun hm => h (List.mem_cons_of_mem c hm)
    have h2 : ¬(c = sep) := fun he => h (by simp [he])
    simp [splitOn, ih h1, h2]

theorem splitOn_append (sep : Char) (rest : List Char) :
    ∀ u : List Char, sep ∉ u →
      splitOn sep (u ++ sep :: rest) = u :: splitOn sep rest := by
  intro u
  induction u with
  | nil =>
    intro _
    match hm : splitOn sep rest with
    | [] => exact absurd hm (splitOn_ne_nil sep rest)
    | h :: t => simp [splitOn, hm]
  | cons c u ih =>
    intro h
    have h1 : sep ∉ u := fun hm => h (List.mem_cons_of_mem c hm)
    have h2 : ¬(c = sep) := fun he => h (by simp [he])
    simp [splitOn, ih h1, h2]

/-! ## C7: malformed repository strings are rejected -/

/-- C7: for every input string whose repository part (after registry and tag
removal) fails `rx_repository` — e.g. one with uppercase letters or an
invalid separator — parsing fails with the malformed-endpoint error
(`RegistryError('El endpoint "<S>" está mal formateado.')`, the error the
specification calls `FormatError("<S> is malformed")`) and no `Image` value
is constructed. -/
theorem malformed_repository_rejected (value : List Char)
    (h : rx_repository (get_repository value) = false) :
    get_parts value = .error (.registryError (malformedMsg value)) := by
  simp [get_parts, h]

theorem malformed_repository_rejected_witness :
    rx_repository (get_repository (chars "NS/App!:dev")) = false ∧
    get_parts (chars "NS/App!:dev") =
      .error (.registryError (malformedMsg (chars "NS/App!:dev"))) :=
  ⟨by decide, malformed_repository_rejected (chars "NS/App!:dev") (by decide)⟩

/-! ## C6: registry removal uses replace-all, breaking the round trip -/

/-- C6: the round trip fails.  `remove_registry` calls
`value.replace(registry, '')`, which removes every occurrence of the matched
prefix, so for the valid composite string `reg.io/reg.io/app:dev` (registry
`reg.io/`, repository `reg.io/app`, tag `dev`) the parsed repository is
`app` and the reconstructed `repository:tag` is `app:dev`, not the original
minus its registry prefix (`reg.io/app:dev`). -/
theorem remove_registry_replace_all_eval :
    get_registry (chars "reg.io/reg.io/app:dev") = some (chars "reg.io/") ∧
    remove_registry (chars "reg.io/reg.io/app:dev") = chars "app:dev" ∧
    get_parts (chars "reg.io/reg.io/app:dev") =
      .ok ⟨some (chars "reg.io/"), chars "app", none, chars "app",
           some (chars "dev"), chars "reg.io/reg.io/app:dev"⟩ ∧
    (get_parts (chars "reg.io/reg.io/app:dev")).map image_tag =
      .ok (chars "app:dev") ∧
    (chars "reg.io/reg.io/app:dev").drop (chars "reg.io/").length =
      chars "reg.io/app:dev" ∧
    chars "app:dev" ≠ chars "reg.io/app:dev" := by
  refine ⟨by decide, by decide, by decide, by decide, by decide, by decide⟩

/-! ## C5: error handling of `Registry.request` -/

/-- C5 counterexample: on a 4xx status whose body is JSON without an
`errors` array, `Registry.request` swallows the `HTTPError` and returns the
response — a success value on an error status, contradicting the claim that
the original HTTP error propagates in that case. -/
theorem request_returns_response_without_errors_key :
    raise_for_status 404 = true ∧
    registry_request 404 (RegBody.json none) = .ok 404 := by
  refine ⟨by decide, by decide⟩

/-- C5 as amended: on a 4xx/5xx status, a JSON body with a non-empty
`errors` array raises `RegistryError("<code>: <message>")` from the first
entry; an undecodable body makes the `response.json()` call raise (a decode
error replaces the HTTP error as the propagating exception, chaining it as
context); a JSON body without an `errors` key falls through and the
response is returned despite its error status. -/
theorem request_error_body_amended (status : Nat) (body : RegBody)
    (h4 : 400 ≤ status) (h6 : status < 600) :
    (∀ e es, body = .json (some (e :: es)) →
        registry_request status body =
          .error (.registryError (e.code ++ chars ": " ++ e.message))) ∧
    (body = .notJson →
        registry_request status body = .error (.jsonDecode status)) ∧
    (body = .json none → registry_request status body = .ok status) := by
  have hrs : raise_for_status status = true := by
    simp [raise_for_status, h4, h6]
  refine ⟨?_, ?_, ?_⟩
  · intro e es hb
    subst hb
    simp [registry_request, hrs]
  · intro hb
    subst hb
    simp [registry_request, hrs]
  · intro hb
    subst hb
    simp [registry_request, hrs]

theorem request_error_body_amended_witness :
    (∀ e es,
        RegBody.json (some [ErrEntry.mk (chars "MANIFEST_UNKNOWN") (chars "manifest unknown")]) =
          .json (some (e :: es)) →
        registry_request 404
            (RegBody.json (some [ErrEntry.mk (chars "MANIFEST_UNKNOWN") (chars "manifest unknown")])) =
          .error (.registryError (e.code ++ chars ": " ++ e.message))) ∧
    (RegBody.json (some [ErrEntry.mk (chars "MANIFEST_UNKNOWN") (chars "manifest unknown")]) = .notJson →
        registry_request 404
            (RegBody.json (some [ErrEntry.mk (chars "MANIFEST_UNKNOWN") (chars "manifest unknown")])) =
          .error (.jsonDecode 404)) ∧
    (RegBody.json (some [ErrEntry.mk (chars "MANIFEST_UNKNOWN") (chars "manifest unknown")]) = .json none →
        registry_request 404
            (RegBody.json (some [ErrEntry.mk (chars "MANIFEST_UNKNOWN") (chars "manifest unknown")])) =
          .ok 404) :=
  request_error_body_amended 404
    (RegBody.json (some [ErrEntry.mk (chars "MANIFEST_UNKNOWN") (chars "manifest unknown")]))
    (by decide) (by decide)

/-! ## C1: rollback tagging precedes promotion -/

theorem get_parts_concat (repo tgt : List Char)
    (hreg : get_registry (repo ++ ':' :: tgt) = none)
    (htag : ':' ∉ tgt)
    (hrx : rx_repository repo = true) :
    get_parts (repo ++ ':' :: tgt) =
      .ok ⟨none, repo, get_namespace (repo ++ ':' :: tgt),
           get_image (repo ++ ':' :: tgt), some tgt, repo ++ ':' :: tgt⟩ := by
  have hrem : remove_registry (repo ++ ':' :: tgt) = repo ++ ':' :: tgt := by
    simp [remove_registry, hreg]
  have hsp := rsplitLast_append ':' tgt htag repo
  simp [get_parts, get_repository, get_tag, hrem, hsp, hrx, hreg]

/-- C1: for every image selected by the release promotion (both `dev → rc`
and `rc → latest` instantiate `target_tag`), the loop body first attempts
the rollback put-tag of the target tag's manifest under
`{target_tag}-rollback`, a failure of which is logged and swallowed, and
only then put-tags the source manifest onto the target tag, whose failure
propagates and stops the batch: the source loop equals the specification's
trace.  The hypotheses say that each selected repository is a well-formed
repository string and that `repository:target_tag` gains no registry prefix
(which holds for all real repository names and the fixed tags `rc` and
`latest`). -/
theorem release_rollback_precedes_promotion
    (target_tag : List Char) (rbFail pmFail : Image → Bool)
    (htag : ':' ∉ target_tag) :
    ∀ imgs : List Image,
      (∀ x ∈ imgs, get_registry (x.repository ++ ':' :: target_tag) = none ∧
          rx_repository x.repository = true) →
      release_loop target_tag rbFail pmFail imgs =
        release_spec_trace target_tag rbFail pmFail imgs := by
  intro imgs
  induction imgs with
  | nil => intro _; rfl
  | cons x xs ih =>
    intro h
    obtain ⟨h1, h3⟩ := h x (List.mem_cons_self x xs)
    have hx := get_parts_concat x.repository target_tag h1 htag h3
    have hxs := ih (fun y hy => h y (List.mem_cons_of_mem x hy))
    cases hrb : rbFail x <;> cases hpm : pmFail x <;>
      simp [release_loop, release_spec_trace, hx, hxs, image_tag, pyStr,
            hrb, hpm]

theorem release_rollback_precedes_promotion_witness :
    (':' ∉ chars "rc") ∧
    (∀ x ∈ [Image.mk none (chars "ns/app") (some (chars "ns")) (chars "app")
              (some (chars "dev")) (chars "ns/app:dev"),
            Image.mk none (chars "ns/web") (some (chars "ns")) (chars "web")
              (some (chars "dev")) (chars "ns/web:dev")],
        get_registry (x.repository ++ ':' :: chars "rc") = none ∧
        rx_repository x.repository = true) ∧
    release_loop (chars "rc") (fun x => x.image = chars "app")
        (fun _ => false)
        [Image.mk none (chars "ns/app") (some (chars "ns")) (chars "app")
           (some (chars "dev")) (chars "ns/app:dev"),
         Image.mk none (chars "ns/web") (some (chars "ns")) (chars "web")
           (some (chars "dev")) (chars "ns/web:dev")] =
      release_spec_trace (chars "rc") (fun x => x.image = chars "app")
        (fun _ => false)
        [Image.mk none (chars "ns/app") (some (chars "ns")) (chars "app")
           (some (chars "dev")) (chars "ns/app:dev"),
         Image.mk none (chars "ns/web") (some (chars "ns")) (chars "web")
           (some (chars "dev")) (chars "ns/web:dev")] :=
  ⟨by decide, by decide,
   release_rollback_precedes_promotion (chars "rc")
     (fun x => x.image = chars "app") (fun _ => false) (by decide) _ (by decide)⟩

/-! ## C2: connection cleanup in `Command.execute` -/

/-- C2 counterexample: a remote command that opens the development
connection and then raises leaves `Command.execute` without ever invoking
`on_finish`/`s_close` — one open, zero closes, and the cached connection is
still set when the exception propagates.  The claim that the connection is
closed on the failure path is therefore false. -/
theorem execute_close_skipped_on_failure :
    execute failingBody ⟨none, none⟩ =
      (⟨some Stage.development, some Stage.development⟩,
       [RemEv.openConn Stage.development], some RemErr.commandFailed) ∧
    countOpen [RemEv.openConn Stage.development] = 1 ∧
    countClose [RemEv.openConn Stage.development] = 0 := by
  refine ⟨by decide, by decide, by decide⟩

/-- C2 as amended: on the success path of the enclosing command,
`Command.execute` runs `on_finish` (→ `s_close`) exactly once, emitting one
close when a connection is cached and none otherwise, and leaving the cache
empty; on the failure path `on_finish` is skipped, no close is emitted at
completion, and the exception propagates (cleanup is left to interpreter
exit). -/
theorem execute_close_on_success_only
    (body : SessionState → SessionState × List RemEv × Option RemErr)
    (st st1 : SessionState) (tr : List RemEv) :
    (body st = (st1, tr, none) →
        execute body st = ((s_close st1).1, tr ++ (s_close st1).2, none) ∧
        (s_close st1).1.cache = none ∧
        countClose (s_close st1).2 = live st1 ∧
        countOpen (s_close st1).2 = 0) ∧
    (∀ e, body st = (st1, tr, some e) → execute body st = (st1, tr, some e)) := by
  constructor
  · intro h
    refine ⟨by simp [execute, h], ?_, ?_, ?_⟩ <;>
      cases hc : st1.cache <;>
        simp [s_close, hc, countClose, countOpen, live]
  · intro e h
    simp [execute, h]

theorem execute_close_on_success_only_witness :
    execute openingBody ⟨none, none⟩ =
      ((s_close ⟨some Stage.development, some Stage.development⟩).1,
       [RemEv.openConn Stage.development] ++
         (s_close ⟨some Stage.development, some Stage.development⟩).2, none) ∧
    (s_close ⟨some Stage.development, some Stage.development⟩).1.cache = none ∧
    countClose (s_close ⟨some Stage.development, some Stage.development⟩).2 =
      live ⟨some Stage.development, some Stage.development⟩ ∧
    countOpen (s_close ⟨some Stage.development, some Stage.development⟩).2 = 0 :=
  (execute_close_on_success_only openingBody ⟨none, none⟩
      ⟨some Stage.development, some Stage.development⟩
      [RemEv.openConn Stage.development]).1 (by decide)

/-! ## C10: the default stage is development -/

/-- C10: a remote command invoked with neither `--development` nor
`--quality` iterates exactly one stage — development — and its connection
loop opens the development connection (given a configured development user
other than `root`), rather than failing or doing nothing. -/
theorem default_stage_development (env : Stage → StageEnv)
    (h : toLowerStr (env Stage.development).user ≠ chars "root") :
    list_environ_stages false false = [Stage.development] ∧
    list_environ_connects env false false ⟨none, none⟩ =
      ([RemEv.openConn Stage.development],
       ⟨some Stage.development, some Stage.development⟩, none) := by
  refine ⟨by decide, ?_⟩
  simp [list_environ_connects, list_environ_stages, stageFlag, runOps,
        stepOp, s_connection, s_close, h]

theorem default_stage_development_witness :
    list_environ_stages false false = [Stage.development] ∧
    list_environ_connects envFix false false ⟨none, none⟩ =
      ([RemEv.openConn Stage.development],
       ⟨some Stage.development, some Stage.development⟩, none) :=
  default_stage_development envFix (by decide)

/-! ## C4: at most one live remote connection -/

theorem afterW_append (n : Nat) :
    ∀ a b : List RemEv, afterW n (a ++ b) = afterW (afterW n a) b := by
  intro a
  induction a generalizing n with
  | nil => intro b; rfl
  | cons e t ih => intro b; cases e <;> simp [afterW, ih]

theorem widthOk_append (n : Nat) :
    ∀ a b : List RemEv,
      widthOk n (a ++ b) = (widthOk n a && widthOk (afterW n a) b) := by
  intro a
  induction a generalizing n with
  | nil => intro b; simp [widthOk, afterW]
  | cons e t ih =>
    intro b
    cases e <;> simp [widthOk, afterW, ih, Bool.and_assoc]

theorem stepOp_width (env : Stage → StageEnv) (st : SessionState) (op : SOp) :
    widthOk (live st) (stepOp env st op).2.1 = true ∧
    afterW (live st) (stepOp env st op).2.1 = live (stepOp env st op).1 := by
  rcases st with ⟨stg, cch⟩
  cases op with
  | connect s =>
    cases stg <;> cases cch <;>
      simp [stepOp, s_connection, s_close, live, widthOk, afterW] <;>
      split_ifs <;> simp_all [widthOk, afterW, live]
  | closeOp =>
    cases cch <;> simp [stepOp, s_close, live, widthOk, afterW]
  | cnxOp =>
    cases stg <;> cases cch <;>
      simp [stepOp, s_connection, s_close, live, widthOk, afterW] <;>
      (try split_ifs) <;> simp_all [widthOk, afterW, live]

theorem runOps_width (env : Stage → StageEnv) :
    ∀ (ops : List SOp) (st : SessionState),
      widthOk (live st) (runOps env ops st).1 = true ∧
      afterW (live st) (runOps env ops st).1 = live (runOps env ops st).2.1 := by
  intro ops
  induction ops with
  | nil => intro st; simp [runOps, widthOk, afterW]
  | cons op ops ih =>
    intro st
    obtain ⟨hw, ha⟩ := stepOp_width env st op
    match hstep : stepOp env st op with
    | (st1, tr1, some e) =>
      rw [hstep] at hw ha
      simp only [runOps, hstep]
      exact ⟨hw, ha⟩
    | (st1, tr1, none) =>
      rw [hstep] at hw ha
      obtain ⟨hw2, ha2⟩ := ih st1
      simp only [runOps, hstep]
      constructor
      · rw [widthOk_append, hw, ha]
        simpa using hw2
      · rw [afterW_append, ha, ha2]

/-- C4: in every state reachable from the initial (closed) session by any
sequence of `s_connection` / `s_close` / `cnx` operations, the event trace
is well-bracketed with width at most one — a connection is only opened when
none is live and closed when one is, so two stages are never connected
simultaneously; moreover, requesting a connection for a stage different
from the open one emits exactly a close of the previous connection followed
by the open of the new one (clearing the cache and stage in between). -/
theorem remote_session_single_connection :
    (∀ (env : Stage → StageEnv) (ops : List SOp),
        widthOk 0 (runOps env ops ⟨none, none⟩).1 = true) ∧
    (∀ (env : Stage → StageEnv) (s s2 : Stage), s ≠ s2 →
        toLowerStr (env s2).user ≠ chars "root" →
        s_connection env s2 ⟨some s, some s⟩ =
          (⟨some s2, some s2⟩,
           [RemEv.closeConn s, RemEv.openConn s2], none)) := by
  constructor
  · intro env ops
    have h := (runOps_width env ops ⟨none, none⟩).1
    simpa [live] using h
  · intro env s s2 hne hroot
    simp [s_connection, s_close, hne, hroot]

theorem remote_session_single_connection_witness :
    widthOk 0 (runOps envFix
        [SOp.connect Stage.development, SOp.connect Stage.quality, SOp.closeOp]
        ⟨none, none⟩).1 = true ∧
    s_connection envFix Stage.quality
        ⟨some Stage.development, some Stage.development⟩ =
      (⟨some Stage.quality, some Stage.quality⟩,
       [RemEv.closeConn Stage.development, RemEv.openConn Stage.quality],
       none) :=
  ⟨remote_session_single_connection.1 envFix
      [SOp.connect Stage.development, SOp.connect Stage.quality, SOp.closeOp],
   remote_session_single_connection.2 envFix Stage.development Stage.quality
      (by decide) (by decide)⟩

/-! ## C3: a failed login aborts the deploy before any destructive step -/

theorem take13_of_login_cmd (rest : List Char) :
    (chars "docker login -u " ++ rest).take 13 = chars "docker login " := rfl

theorem mkLoginCmd_take13 (credentials host cmd : List Char)
    (h : mkLoginCmd credentials host = some cmd) :
    cmd.take 13 = chars "docker login " := by
  unfold mkLoginCmd at h
  by_cases h2 : 2 ≤ (splitOn ':' credentials).length
  · simp only [h2, if_true] at h
    injection h with h3
    rw [← h3]
    simp only [List.append_assoc]
    exact take13_of_login_cmd _
  · simp only [h2, if_false] at h
    exact absurd h (by simp)

/-- C3: when the remote registry login fails — the output of the login
command does not match the `Login Succeeded` pattern, or the attempt raises
— `_deploy` raises `SystemExit` and no further remote command runs: every
command issued is the single `docker login` invocation, and in particular
no stop, container removal, image removal, volume prune, update, or
recreate command was executed for the stage. -/
theorem deploy_aborts_on_login_failure
    (credentials host : List Char) (oc : LoginOutcome)
    (services images : List (List Char)) (update : Bool)
    (h : loginFails oc = true) :
    (deploy credentials host oc services images update).2 =
      some RemErr.loginFailed ∧
    (deploy credentials host oc services images update).1.length ≤ 1 ∧
    (∀ c ∈ (deploy credentials host oc services images update).1,
        c.take 13 = chars "docker login ") ∧
    chars "docker-compose stop" ∉
      (deploy credentials host oc services images update).1 ∧
    chars "docker volume prune -f" ∉
      (deploy credentials host oc services images update).1 ∧
    chars "docker-compose up -d --remove-orphans" ∉
      (deploy credentials host oc services images update).1 := by
  have hfail : (login_model credentials host oc).2 = false := by
    unfold login_model
    match hm : mkLoginCmd credentials host with
    | none => simp
    | some cmd =>
      cases oc with
      | raises => simp
      | output out =>
        simp only [loginFails, Bool.not_eq_eq_eq_not, Bool.not_true] at h
        simp [h]
  have htrace : ∀ c ∈ (login_model credentials host oc).1,
      c.take 13 = chars "docker login " := by
    unfold login_model
    match hm : mkLoginCmd credentials host with
    | none => simp
    | some cmd =>
      have hc := mkLoginCmd_take13 credentials host cmd hm
      cases oc <;> simp [hc]
  have hlen : (login_model credentials host oc).1.length ≤ 1 := by
    unfold login_model
    match hm : mkLoginCmd credentials host with
    | none => simp
    | some cmd => cases oc <;> simp
  have hdep : deploy credentials host oc services images update =
      ((login_model credentials host oc).1, some RemErr.loginFailed) := by
    unfold deploy
    rw [hfail]
    simp only [Bool.false_eq_true, if_false]
  rw [hdep]
  refine ⟨rfl, hlen, htrace, ?_, ?_, ?_⟩ <;>
    · intro hmem
      have hx := htrace _ hmem
      exact absurd hx (by decide)

theorem deploy_aborts_on_login_failure_witness :
    loginFails (LoginOutcome.output (chars "Login Failed")) = true ∧
    ((deploy (chars "user:pass") (chars "registry.local")
        (LoginOutcome.output (chars "Login Failed"))
        [chars "api"] [chars "api:dev"] true).2 = some RemErr.loginFailed ∧
     (deploy (chars "user:pass") (chars "registry.local")
        (LoginOutcome.output (chars "Login Failed"))
        [chars "api"] [chars "api:dev"] true).1.length ≤ 1 ∧
     (∀ c ∈ (deploy (chars "user:pass") (chars "registry.local")
        (LoginOutcome.output (chars "Login Failed"))
        [chars "api"] [chars "api:dev"] true).1,
        c.take 13 = chars "docker login ") ∧
     chars "docker-compose stop" ∉
       (deploy (chars "user:pass") (chars "registry.local")
        (LoginOutcome.output (chars "Login Failed"))
        [chars "api"] [chars "api:dev"] true).1 ∧
     chars "docker volume prune -f" ∉
       (deploy (chars "user:pass") (chars "registry.local")
        (LoginOutcome.output (chars "Login Failed"))
        [chars "api"] [chars "api:dev"] true).1 ∧
     chars "docker-compose up -d --remove-orphans" ∉
       (deploy (chars "user:pass") (chars "registry.local")
        (LoginOutcome.output (chars "Login Failed"))
        [chars "api"] [chars "api:dev"] true).1) :=
  ⟨by decide,
   deploy_aborts_on_login_failure (chars "user:pass") (chars "registry.local")
     (LoginOutcome.output (chars "Login Failed"))
     [chars "api"] [chars "api:dev"] true (by decide)⟩

/-! ## C9: session headers and basic-auth construction -/

theorem find_map_set (k v : List Char) :
    ∀ hs : List (List Char × List Char),
      (hs.map (fun p => if p.1 = k then (k, v) else p)).find?
          (fun p => p.1 = k) =
        if hs.any (fun p => p.1 = k) then some (k, v) else none := by
  intro hs
  induction hs with
  | nil => rfl
  | cons p t ih =>
    by_cases hp : p.1 = k
    · simp [hp, List.find?]
    · simp [hp, List.find?, ih]
      rw [decide_eq_false hp]
      rw [Bool.false_or]

theorem find_append_none (k v : List Char) :
    ∀ hs : List (List Char × List Char), hs.any (fun p => p.1 = k) = false →
      (hs ++ [(k, v)]).find? (fun p => p.1 = k) = some (k, v) := by
  intro hs
  induction hs with
  | nil => intro _; simp [List.find?]
  | cons p t ih =>
    intro h
    simp only [List.any_cons, Bool.or_eq_false_iff] at h
    obtain ⟨h1, h2⟩ := h
    simp only [decide_eq_false_iff_not] at h1
    simp [List.find?, h1, ih h2]

theorem lookupHeader_setHeader (k v : List Char)
    (hs : List (List Char × List Char)) :
    lookupHeader k (setHeader k v hs) = some v := by
  unfold setHeader lookupHeader
  by_cases ha : hs.any (fun p => p.1 = k) = true
  · simp only [ha, if_true]
    rw [find_map_set]
    simp [ha]
  · simp only [Bool.not_eq_true] at ha
    simp only [ha, Bool.false_eq_true, if_false]
    rw [find_append_none k v hs ha]
    rfl

/-- C9 counterexample: a configured credential whose password contains a
colon is split at every colon, so `HTTPBasicAuth(*parts)` receives three
positional arguments and raises `TypeError` — the password is not preserved
intact and no session is built. -/
theorem session_colon_credentials_raise :
    get_credentials_split
        ⟨chars "registry.local", false, true, some (chars "user:pa:ss")⟩ =
      some [chars "user", chars "pa", chars "ss"] ∧
    mk_session
        ⟨chars "registry.local", false, true, some (chars "user:pa:ss")⟩ [] =
      .error .typeError := by
  refine ⟨by decide, by decide⟩

/-- C9 as amended: every successfully built registry session carries the
`User-Agent` header (set last, overriding any caller value), and basic auth
is built by splitting the credential string at every colon: a credential
with exactly one colon yields `(user, pass)`, while any other colon count
makes `HTTPBasicAuth(*parts)` raise `TypeError` and no session is built. -/
theorem session_headers_auth_amended (r : Registry)
    (hs : List (List Char × List Char)) :
    (∀ s, mk_session r hs = .ok s →
        lookupHeader (chars "User-Agent") s.headers =
          some (chars "AySA-Command-Line-Tool")) ∧
    (∀ u p, ':' ∉ u → ':' ∉ p → r.credentials = some (u ++ ':' :: p) →
        mk_session r hs = .ok ⟨some (u, p),
          setHeader (chars "User-Agent") (chars "AySA-Command-Line-Tool")
            (updateHeaders [] hs), r.verify⟩) ∧
    (∀ c, r.credentials = some c → (splitOn ':' c).length ≠ 2 →
        mk_session r hs = .error .typeError) := by
  refine ⟨?_, ?_, ?_⟩
  · intro s hok
    unfold mk_session at hok
    match hc : r.credentials with
    | none =>
      rw [hc] at hok
      simp only at hok
      injection hok with h1
      rw [← h1]
      exact lookupHeader_setHeader _ _ _
    | some c =>
      rw [hc] at hok
      by_cases hl : (splitOn ':' c).length = 2
      · simp only [hl, if_true] at hok
        injection hok with h1
        rw [← h1]
        exact lookupHeader_setHeader _ _ _
      · simp only [hl, if_false] at hok
        exact absurd hok (by simp)
  · intro u p hu hp hc
    have hsp : splitOn ':' (u ++ ':' :: p) = [u, p] := by
      rw [splitOn_append ':' p u hu, splitOn_not_mem ':' p hp]
    unfold mk_session
    rw [hc]
    simp [hsp]
  · intro c hc hl
    unfold mk_session
    rw [hc]
    simp [hl]

theorem session_headers_auth_amended_witness :
    mk_session ⟨chars "registry.local", false, true, some (chars "user:pass")⟩
        [(chars "Accept", chars "*/*")] =
      .ok ⟨some (chars "user", chars "pass"),
        setHeader (chars "User-Agent") (chars "AySA-Command-Line-Tool")
          (updateHeaders [] [(chars "Accept", chars "*/*")]),
        (Registry.mk (chars "registry.local") false true
          (some (chars "user:pass"))).verify⟩ :=
  (session_headers_auth_amended
      ⟨chars "registry.local", false, true, some (chars "user:pass")⟩
      [(chars "Accept", chars "*/*")]).2.1
    (chars "user") (chars "pass") (by decide) (by decide) (by decide)

/-! ## C8: what the catalog walker yields -/

theorem exMap_map {ε α β γ : Type} (f : β → Except ε γ) (g : α → β) :
    ∀ l : List α, exMap f (l.map g) = exMap (fun a => f (g a)) l := by
  intro l
  induction l with
  | nil => rfl
  | cons a t ih => simp [exMap, ih]

theorem exMap_append {ε α β : Type} (f : α → Except ε β) :
    ∀ l1 l2 : List α,
      exMap f (l1 ++ l2) =
        match exMap f l1 with
        | .error e => .error e
        | .ok b1 => (exMap f l2).map (fun b2 => b1 ++ b2) := by
  intro l1 l2
  induction l1 with
  | nil =>
    simp only [List.nil_append, exMap]
    cases exMap f l2 with
    | error e => rfl
    | ok c => simp [Except.map]
  | cons a t ih =>
    simp only [List.cons_append, exMap]
    rw [show List.append t l2 = t ++ l2 from rfl, ih]
    cases f a <;> cases exMap f t <;> cases exMap f l2 <;> simp [Except.map]

theorem tagLoop_eq (ft : TagFilter) (x : List Char) :
    ∀ ys : List (List Char),
      tagLoop ft x ys =
        exMap (fun y => get_parts (x ++ ':' :: y)) (ys.filter (tagPass ft)) := by
  intro ys
  induction ys with
  | nil => rfl
  | cons y t ih =>
    by_cases hy : tagPass ft y = true
    · rw [List.filter_cons_of_pos hy]
      simp only [tagLoop, hy, if_true, exMap, ih]
      cases get_parts (x ++ ':' :: y) <;> rfl
    · rw [List.filter_cons_of_neg (by simp [hy])]
      simp only [tagLoop, hy, Bool.false_eq_true, if_false, ih]

theorem listLoop_truthy_eq (ns : List Char) (frs : List (List Char))
    (ft : TagFilter) (tagsOf : List Char → List (List Char))
    (hft : tagFilterTruthy ft = true) :
    ∀ catalog : List (List Char),
      listLoop ns frs ft tagsOf catalog =
        exMap get_parts
          ((catalog.filter (fun x => !repoSkip ns frs x)).flatMap
            (fun x => ((tagsOf x).filter (tagPass ft)).map
              (fun y => x ++ ':' :: y))) := by
  intro catalog
  induction catalog with
  | nil => rfl
  | cons x xs ih =>
    by_cases hx : repoSkip ns frs x = true
    · rw [List.filter_cons_of_neg (by simp [hx])]
      simp only [listLoop, hx, if_true, ih]
    · rw [List.filter_cons_of_pos (by simp [hx])]
      simp only [listLoop, hx, Bool.false_eq_true, if_false, hft, if_true,
                 List.flatMap_cons]
      rw [exMap_append, exMap_map, ← tagLoop_eq, ih]
      cases tagLoop ft x (tagsOf x) <;> rfl

theorem listLoop_bare_eq (ns : List Char) (frs : List (List Char))
    (tagsOf : List Char → List (List Char)) :
    ∀ catalog : List (List Char),
      listLoop ns frs (TagFilter.listF []) tagsOf catalog =
        exMap get_parts (catalog.filter (fun x => !repoSkip ns frs x)) := by
  intro catalog
  induction catalog with
  | nil => rfl
  | cons x xs ih =>
    by_cases hx : repoSkip ns frs x = true
    · rw [List.filter_cons_of_neg (by simp [hx])]
      simp only [listLoop, hx, if_true, ih]
    · rw [List.filter_cons_of_pos (by simp [hx])]
      simp only [listLoop, hx, Bool.false_eq_true, if_false, tagFilterTruthy,
                 List.isEmpty_nil, Bool.not_true, exMap, ih]
      cases get_parts x <;> rfl

/-- C8: the catalog walker.  With `filter_tags='*'` it yields one `Image`
per (repository × tag) pair over the repositories surviving the namespace
and repo filters; with a non-wildcard tag list it yields only the pairs
whose tag is a member of the (stripped) list; and when the tag-filter value
is falsy — a value `_fix_tags_list` never produces, so this branch is
reachable only on the inner loop — it yields exactly one bare-repository
`Image` per surviving repository, regardless of its tag count. -/
theorem catalog_walker_yields (ns : List Char) (catalog : List (List Char))
    (tagsOf : List Char → List (List Char)) (frIn : ReposInput) :
    (list_images ns catalog tagsOf frIn (.strV ['*']) =
        exMap get_parts
          ((catalog.filter (fun x => !repoSkip ns (fix_images_list ns frIn) x)).flatMap
            (fun x => (tagsOf x).map (fun y => x ++ ':' :: y)))) ∧
    (∀ ts : List (List Char), ts ≠ [] →
        list_images ns catalog tagsOf frIn (.listV ts) =
          exMap get_parts
            ((catalog.filter (fun x => !repoSkip ns (fix_images_list ns frIn) x)).flatMap
              (fun x => ((tagsOf x).filter
                  (fun y => decide (y ∈ ts.map pyStrip))).map
                (fun y => x ++ ':' :: y)))) ∧
    (listLoop ns (fix_images_list ns frIn) (TagFilter.listF []) tagsOf catalog =
        exMap get_parts
          (catalog.filter (fun x => !repoSkip ns (fix_images_list ns frIn) x))) := by
  refine ⟨?_, ?_, ?_⟩
  · unfold list_images
    have h1 : fix_tags_list (.strV ['*']) = TagFilter.wildcard := rfl
    rw [h1, listLoop_truthy_eq ns (fix_images_list ns frIn)
          TagFilter.wildcard tagsOf rfl catalog]
    have h2 : tagPass TagFilter.wildcard = fun _ => true := rfl
    rw [h2]
    simp [List.filter_true]
  · intro ts hts
    unfold list_images
    have h1 : fix_tags_list (.listV ts) = TagFilter.listF (ts.map pyStrip) := by
      unfold fix_tags_list
      simp [hts]
    have hft : tagFilterTruthy (TagFilter.listF (ts.map pyStrip)) = true := by
      cases ts with
      | nil => exact absurd rfl hts
      | cons a b => rfl
    rw [h1, listLoop_truthy_eq ns (fix_images_list ns frIn)
          (TagFilter.listF (ts.map pyStrip)) tagsOf hft catalog]
    rfl
  · exact listLoop_bare_eq ns (fix_images_list ns frIn) tagsOf catalog

theorem catalog_walker_yields_witness :
    (list_images (chars "ns") [chars "ns/app", chars "other/x"]
        (fun r => if r = chars "ns/app" then [chars "dev", chars "rc"]
                  else [chars "dev"])
        ReposInput.noneV (.strV ['*']) =
      exMap get_parts
        (([chars "ns/app", chars "other/x"].filter
            (fun x => !repoSkip (chars "ns")
              (fix_images_list (chars "ns") ReposInput.noneV) x)).flatMap
          (fun x => ((fun r => if r = chars "ns/app" then [chars "dev", chars "rc"]
                               else [chars "dev"]) x).map
            (fun y => x ++ ':' :: y)))) ∧
    (list_images (chars "ns") [chars "ns/app", chars "other/x"]
        (fun r => if r = chars "ns/app" then [chars "dev", chars "rc"]
                  else [chars "dev"])
        ReposInput.noneV (.listV [chars "dev"]) =
      exMap get_parts
        (([chars "ns/app", chars "other/x"].filter
            (fun x => !repoSkip (chars "ns")
              (fix_images_list (chars "ns") ReposInput.noneV) x)).flatMap
          (fun x => (((fun r => if r = chars "ns/app" then [chars "dev", chars "rc"]
                                else [chars "dev"]) x).filter
              (fun y => decide (y ∈ [chars "dev"].map pyStrip))).map
            (fun y => x ++ ':' :: y)))) ∧
    (listLoop (chars "ns") (fix_images_list (chars "ns") ReposInput.noneV)
        (TagFilter.listF [])
        (fun r => if r = chars "ns/app" then [chars "dev", chars "rc"]
                  else [chars "dev"])
        [chars "ns/app", chars "other/x"] =
      exMap get_parts
        ([chars "ns/app", chars "other/x"].filter
          (fun x => !repoSkip (chars "ns")
            (fix_images_list (chars "ns") ReposInput.noneV) x))) :=
  ⟨(catalog_walker_yields (chars "ns") [chars "ns/app", chars "other/x"]
      (fun r => if r = chars "ns/app" then [chars "dev", chars "rc"]
                else [chars "dev"]) ReposInput.noneV).1,
   (catalog_walker_yields (chars "ns") [chars "ns/app", chars "other/x"]
      (fun r => if r = chars "ns/app" then [chars "dev", chars "rc"]
                else [chars "dev"]) ReposInput.noneV).2.1
     [chars "dev"] (by decide),
   (catalog_walker_yields (chars "ns") [chars "ns/app", chars "other/x"]
      (fun r => if r = chars "ns/app" then [chars "dev", chars "rc"]
                else [chars "dev"]) ReposInput.noneV).2.2⟩
